/-
Verification of the quota monitoring core of claude-quota-cli.

Shallow embedding of:
  * the threshold classifier `getThresholdForPercentage`
    (src/services/discord.ts, lines 5-13);
  * the alert decision loop of the `monitor` command's `runOnce`
    (src/cli.ts lines 270-294, and the two-provider variant which only
    changes how the state key string is built);
  * the webhook fan-out `postToWebhooks` (discord service, lines 16-38);
  * the daily report check `checkDailyReport` (monitor command);
  * the alert state store `loadAlertState` (config service).

Numbers coming from JavaScript are modelled as rationals (ℚ); the alert
state object is modelled as an insertion-ordered association list, which
matches JavaScript object get / set semantics for string keys.
-/
import Mathlib

namespace QuotaCli

/-- The descending tier list `THRESHOLDS = [80, 60, 40, 20]` from
src/services/discord.ts. -/
def THRESHOLDS : List ℚ := [80, 60, 40, 20]

/-- `getThresholdForPercentage` from src/services/discord.ts:
scan `THRESHOLDS` in order, returning the first `t` with
`t <= utilization && utilization < t + 20` (the `for` loop with early
`return`); if no tier matches, return `80` when `utilization >= 80`,
otherwise `null` (modelled as `none`). -/
def getThresholdForPercentage (utilization : ℚ) : Option ℚ :=
  match THRESHOLDS.find? (fun t => decide (t ≤ utilization) && decide (utilization < t + 20)) with
  | some t => some t
  | none => if 80 ≤ utilization then some 80 else none

/-- Closed-form characterization of the classifier: the scan from the
highest tier down is equivalent to a descending if-chain. -/
theorem getThreshold_eq (u : ℚ) :
    getThresholdForPercentage u =
      if 80 ≤ u then some 80
      else if 60 ≤ u then some 60
      else if 40 ≤ u then some 40
      else if 20 ≤ u then some 20
      else none := by
  unfold getThresholdForPercentage THRESHOLDS
  rcases le_or_lt 80 u with h80 | h80
  · rcases le_or_lt 100 u with h100 | h100
    · have n100 : ¬ u < 80 + 20 := by intro h; linarith
      have n80 : ¬ u < 60 + 20 := by intro h; linarith
      have n60 : ¬ u < 40 + 20 := by intro h; linarith
      have n40 : ¬ u < 20 + 20 := by intro h; linarith
      have l60 : (60 : ℚ) ≤ u := by linarith
      have l40 : (40 : ℚ) ≤ u := by linarith
      have l20 : (20 : ℚ) ≤ u := by linarith
      simp [List.find?, h80, l60, l40, l20, n100, n80, n60, n40]
    · have hlt : u < 80 + 20 := by linarith
      simp [List.find?, h80, hlt]
  · have n80 : ¬ (80 : ℚ) ≤ u := not_le.mpr h80
    rcases le_or_lt 60 u with h60 | h60
    · have hlt : u < 60 + 20 := by linarith
      simp [List.find?, n80, h60, hlt]
    · have n60 : ¬ (60 : ℚ) ≤ u := not_le.mpr h60
      rcases le_or_lt 40 u with h40 | h40
      · have hlt : u < 40 + 20 := by linarith
        simp [List.find?, n80, n60, h40, hlt]
      · have n40 : ¬ (40 : ℚ) ≤ u := not_le.mpr h40
        rcases le_or_lt 20 u with h20 | h20
        · have hlt : u < 20 + 20 := by linarith
          simp [List.find?, n80, n60, n40, h20, hlt]
        · simp [List.find?, n80, n60, n40, not_le.mpr h20]

/-- A classified window is at or above the lowest tier. -/
theorem getThreshold_some_le (u t : ℚ) (h : getThresholdForPercentage u = some t) :
    20 ≤ u := by
  rw [getThreshold_eq] at h
  split_ifs at h with h80 h60 h40 h20 <;> linarith

/-- Below the lowest tier the classifier returns `none`. -/
theorem getThreshold_lt20 (u : ℚ) (h : u < 20) :
    getThresholdForPercentage u = none := by
  rw [getThreshold_eq]
  have h80 : ¬ (80 : ℚ) ≤ u := by linarith
  have h60 : ¬ (60 : ℚ) ≤ u := by linarith
  have h40 : ¬ (40 : ℚ) ≤ u := by linarith
  have h20 : ¬ (20 : ℚ) ≤ u := by linarith
  simp [h80, h60, h40, h20]

/-! ## Alert state store

`AlertState` in config.ts is a JSON object mapping a state key (a string
built from provider and window period) to the array of tiers already
alerted.  A JavaScript object with string keys is an insertion-ordered
map: reading a key yields its value or `undefined`, writing overwrites in
place or appends a fresh entry at the end.  We model it as an association
list with those exact get / set operations. -/

/-- Alert state: insertion-ordered association list from state key to the
array of tiers already alerted (`AlertState` in config.ts). -/
abbrev AlertState : Type := List (String × List ℚ)

/-- `state[key] || []`: value of the first entry for `key`, or `[]` when
the key is absent (and for the empty array, which is truthy in
JavaScript, the stored value itself). -/
def lookupD : AlertState → String → List ℚ
  | [], _ => []
  | (k', v) :: rest, k => if k' = k then v else lookupD rest k

/-- Whether the object has an own entry for `key` (present even when the
stored array is empty). -/
def hasKey : AlertState → String → Bool
  | [], _ => false
  | (k', _) :: rest, k => k' == k || hasKey rest k

/-- `state[key] = v`: overwrite the entry in place when present,
otherwise append it. -/
def setKey : AlertState → String → List ℚ → AlertState
  | [], k, v => [(k, v)]
  | (k', v') :: rest, k, v =>
      if k' = k then (k, v) :: rest else (k', v') :: setKey rest k v

theorem lookupD_setKey_self (st : AlertState) (k : String) (v : List ℚ) :
    lookupD (setKey st k v) k = v := by
  induction st with
  | nil => simp [setKey, lookupD]
  | cons p rest ih =>
    obtain ⟨k', v'⟩ := p
    by_cases h : k' = k
    · simp [setKey, h, lookupD]
    · simp [setKey, h, lookupD, ih]

theorem lookupD_setKey_other (st : AlertState) (k k' : String) (v : List ℚ)
    (h : k' ≠ k) : lookupD (setKey st k v) k' = lookupD st k' := by
  induction st with
  | nil => simp [setKey, lookupD, Ne.symm h]
  | cons p rest ih =>
    obtain ⟨k'', v''⟩ := p
    by_cases hk : k'' = k
    · subst hk
      simp [setKey, lookupD, Ne.symm h]
    · simp [setKey, hk, lookupD, ih]

theorem hasKey_setKey_other (st : AlertState) (k k' : String) (v : List ℚ)
    (h : k' ≠ k) : hasKey (setKey st k v) k' = hasKey st k' := by
  induction st with
  | nil => simp [setKey, hasKey, Ne.symm h]
  | cons p rest ih =>
    obtain ⟨k'', v''⟩ := p
    by_cases hk : k'' = k
    · subst hk
      simp [setKey, hasKey]
    · simp [setKey, hk, hasKey, ih]

/-! ## Alert decision engine

The `monitor` command's `runOnce` iterates over the windows of the
snapshot (`[snapshot.fiveHour, snapshot.sevenDay]`, absent windows
skipped; the two-provider variant also walks the OpenAI windows with
`openai:`-prefixed keys).  Per window, quoting the source:

    const threshold = getThresholdForPercentage(quota.utilization);
    if (threshold === null) continue;
    const alertedThresholds = state[stateKey] || [];
    if (!alertedThresholds.includes(threshold)) {
      await sendDiscordAlert(...);
      state[stateKey] = [...alertedThresholds, threshold];
      alertsSent++;
    }
    if (quota.utilization < 20) {
      state[stateKey] = [];
    }

`stepWindow` is this body with every send succeeding (the pure decision
step); `runSendsAux` below additionally models the send outcome. -/

/-- One window of a snapshot, as the decision loop sees it: its state key
(`quota.period`, or provider-prefixed) and its utilization percentage. -/
structure QuotaWindow where
  stateKey : String
  utilization : ℚ

/-- The per-window body of `runOnce`'s decision loop, sends always
succeeding.  The accumulator carries the mutable `state` object and the
list of alerts sent so far.  The trailing `utilization < 20` reset is kept
exactly where the source has it: after the `threshold === null` early
`continue`. -/
def stepWindow (acc : AlertState × List (String × ℚ)) (w : QuotaWindow) :
    AlertState × List (String × ℚ) :=
  match getThresholdForPercentage w.utilization with
  | none => acc
  | some t =>
    let st := acc.1
    let alerts := acc.2
    let alerted := lookupD st w.stateKey
    let st' := if t ∈ alerted then st else setKey st w.stateKey (alerted ++ [t])
    let alerts' := if t ∈ alerted then alerts else alerts ++ [(w.stateKey, t)]
    if w.utilization < 20 then (setKey st' w.stateKey [], alerts') else (st', alerts')

/-- The decision loop over all windows of the snapshot. -/
def decideAux : List QuotaWindow → AlertState × List (String × ℚ) →
    AlertState × List (String × ℚ)
  | [], acc => acc
  | w :: ws, acc => decideAux ws (stepWindow acc w)

/-- The spec's `decide(snapshot, state) -> (alertsToSend, updatedState)`:
run the decision loop of `runOnce` on every window of the snapshot,
starting from the loaded state, with every send succeeding. -/
def decideAlerts (snapshot : List QuotaWindow) (st : AlertState) :
    AlertState × List (String × ℚ) :=
  decideAux snapshot (st, [])

/-- A window is covered by a state when its classified tier (if any)
already sits in the state entry for its key. -/
def Covered (st : AlertState) (w : QuotaWindow) : Prop :=
  ∀ t, getThresholdForPercentage w.utilization = some t → t ∈ lookupD st w.stateKey

/-- A window that classifies to `none` leaves the accumulator untouched
(the `continue` fires before the `utilization < 20` reset, so the reset
statement is unreachable). -/
theorem stepWindow_none (acc : AlertState × List (String × ℚ)) (w : QuotaWindow)
    (hcl : getThresholdForPercentage w.utilization = none) :
    stepWindow acc w = acc := by
  unfold stepWindow
  rw [hcl]

/-- The decision step never removes a tier from a state entry. -/
theorem stepWindow_mono (acc : AlertState × List (String × ℚ)) (w : QuotaWindow)
    (k : String) (x : ℚ) (h : x ∈ lookupD acc.1 k) :
    x ∈ lookupD (stepWindow acc w).1 k := by
  cases hcl : getThresholdForPercentage w.utilization with
  | none => rw [stepWindow_none acc w hcl]; exact h
  | some t =>
    have h20 : ¬ w.utilization < 20 := not_lt.mpr (getThreshold_some_le _ _ hcl)
    unfold stepWindow
    rw [hcl]
    simp only [h20, if_false]
    by_cases hmem : t ∈ lookupD acc.1 w.stateKey
    · simp [hmem, h]
    · simp only [hmem, if_false]
      by_cases hk : k = w.stateKey
      · subst hk
        rw [lookupD_setKey_self]
        exact List.mem_append_left _ h
      · rw [lookupD_setKey_other _ _ _ _ hk]
        exact h

/-- After its own decision step a window is covered. -/
theorem stepWindow_covers (acc : AlertState × List (String × ℚ)) (w : QuotaWindow) :
    Covered (stepWindow acc w).1 w := by
  intro t hcl
  have h20 : ¬ w.utilization < 20 := not_lt.mpr (getThreshold_some_le _ _ hcl)
  unfold stepWindow
  rw [hcl]
  simp only [h20, if_false]
  by_cases hmem : t ∈ lookupD acc.1 w.stateKey
  · simp [hmem]
  · simp only [hmem, if_false]
    rw [lookupD_setKey_self]
    exact List.mem_append_right _ (List.mem_singleton.mpr rfl)

/-- The whole decision loop never removes a tier from a state entry. -/
theorem decideAux_mono (ws : List QuotaWindow) (acc : AlertState × List (String × ℚ))
    (k : String) (x : ℚ) (h : x ∈ lookupD acc.1 k) :
    x ∈ lookupD (decideAux ws acc).1 k := by
  induction ws generalizing acc with
  | nil => exact h
  | cons w ws ih => exact ih _ (stepWindow_mono acc w k x h)

/-- After the decision loop, every window of the snapshot is covered by
the resulting state. -/
theorem decideAux_covers (ws : List QuotaWindow) (acc : AlertState × List (String × ℚ)) :
    ∀ w ∈ ws, Covered (decideAux ws acc).1 w := by
  induction ws generalizing acc with
  | nil => intro w hw; cases hw
  | cons w' ws ih =>
    intro w hw
    rcases List.mem_cons.mp hw with rfl | hw
    · intro t hcl
      exact decideAux_mono ws _ _ _ (stepWindow_covers acc w t hcl)
    · exact ih (stepWindow acc w') w hw

/-- On a covered window the decision step is the identity: no alert, no
state change. -/
theorem stepWindow_id_of_covered (acc : AlertState × List (String × ℚ))
    (w : QuotaWindow) (h : Covered acc.1 w) : stepWindow acc w = acc := by
  cases hcl : getThresholdForPercentage w.utilization with
  | none => exact stepWindow_none acc w hcl
  | some t =>
    have h20 : ¬ w.utilization < 20 := not_lt.mpr (getThreshold_some_le _ _ hcl)
    unfold stepWindow
    rw [hcl]
    simp [h20, h t hcl]

/-- On a snapshot all of whose windows are covered, the decision loop
changes nothing. -/
theorem decideAux_id_of_covered (ws : List QuotaWindow)
    (acc : AlertState × List (String × ℚ)) (h : ∀ w ∈ ws, Covered acc.1 w) :
    decideAux ws acc = acc := by
  induction ws with
  | nil => rfl
  | cons w ws ih =>
    have hs : stepWindow acc w = acc := stepWindow_id_of_covered acc w (h w (by simp))
    show decideAux ws (stepWindow acc w) = acc
    rw [hs]
    exact ih (fun w' hw' => h w' (by simp [hw']))

/-- The decision step touches no state entry other than the one for the
window's own key. -/
theorem stepWindow_hasKey_other (acc : AlertState × List (String × ℚ))
    (w : QuotaWindow) (k : String) (hk : k ≠ w.stateKey) :
    hasKey (stepWindow acc w).1 k = hasKey acc.1 k := by
  cases hcl : getThresholdForPercentage w.utilization with
  | none => rw [stepWindow_none acc w hcl]
  | some t =>
    unfold stepWindow
    rw [hcl]
    by_cases hmem : t ∈ lookupD acc.1 w.stateKey <;>
      by_cases h20 : w.utilization < 20 <;>
        simp [hmem, h20, hasKey_setKey_other _ _ _ _ hk]

/-- The decision step emits no alert for a key other than the window's
own key. -/
theorem stepWindow_alerts_other (acc : AlertState × List (String × ℚ))
    (w : QuotaWindow) (k : String) (t : ℚ) (hk : k ≠ w.stateKey)
    (h : (k, t) ∉ acc.2) : (k, t) ∉ (stepWindow acc w).2 := by
  cases hcl : getThresholdForPercentage w.utilization with
  | none => rw [stepWindow_none acc w hcl]; exact h
  | some t' =>
    unfold stepWindow
    rw [hcl]
    by_cases hmem : t' ∈ lookupD acc.1 w.stateKey <;>
      by_cases h20 : w.utilization < 20 <;>
        simp [hmem, h20, h, hk]

/-- If every window of the snapshot carrying key `k` classifies below the
lowest tier, and the state has no entry for `k`, the decision loop
creates no entry for `k` and emits no alert for `k`. -/
theorem decideAux_no_entry (ws : List QuotaWindow)
    (acc : AlertState × List (String × ℚ)) (k : String)
    (hu : ∀ w ∈ ws, w.stateKey = k → w.utilization < 20)
    (h0 : hasKey acc.1 k = false) (h1 : ∀ t, (k, t) ∉ acc.2) :
    hasKey (decideAux ws acc).1 k = false ∧ ∀ t, (k, t) ∉ (decideAux ws acc).2 := by
  induction ws generalizing acc with
  | nil => exact ⟨h0, h1⟩
  | cons w ws ih =>
    show hasKey (decideAux ws (stepWindow acc w)).1 k = false ∧
      ∀ t, (k, t) ∉ (decideAux ws (stepWindow acc w)).2
    by_cases hk : w.stateKey = k
    · have hcl : getThresholdForPercentage w.utilization = none :=
        getThreshold_lt20 _ (hu w (by simp) hk)
      rw [stepWindow_none acc w hcl]
      exact ih acc (fun w' hw' => hu w' (by simp [hw'])) h0 h1
    · have hk' : k ≠ w.stateKey := fun h => hk h.symm
      refine ih (stepWindow acc w) (fun w' hw' => hu w' (by simp [hw'])) ?_ ?_
      · rw [stepWindow_hasKey_other acc w k hk']
        exact h0
      · intro t
        exact stepWindow_alerts_other acc w k t hk' (h1 t)

/-! ## Claim theorems about the decision engine -/

/-- C2: the threshold classifier is total over utilization in [0, ∞) (it
is a total Lean function) and returns `none` on [0,20), `20` on [20,40),
`40` on [40,60), `60` on [60,80), and `80` on [80, ∞), the top tier
having no upper bound. -/
theorem classifier_tiers (u : ℚ) (h : 0 ≤ u) :
    (u < 20 → getThresholdForPercentage u = none) ∧
    (20 ≤ u → u < 40 → getThresholdForPercentage u = some 20) ∧
    (40 ≤ u → u < 60 → getThresholdForPercentage u = some 40) ∧
    (60 ≤ u → u < 80 → getThresholdForPercentage u = some 60) ∧
    (80 ≤ u → getThresholdForPercentage u = some 80) := by
  refine ⟨fun h20 => getThreshold_lt20 u h20, ?_, ?_, ?_, ?_⟩
  · intro h1 h2
    rw [getThreshold_eq]
    have n80 : ¬ (80 : ℚ) ≤ u := by linarith
    have n60 : ¬ (60 : ℚ) ≤ u := by linarith
    have n40 : ¬ (40 : ℚ) ≤ u := by linarith
    simp [n80, n60, n40, h1]
  · intro h1 h2
    rw [getThreshold_eq]
    have n80 : ¬ (80 : ℚ) ≤ u := by linarith
    have n60 : ¬ (60 : ℚ) ≤ u := by linarith
    simp [n80, n60, h1]
  · intro h1 h2
    rw [getThreshold_eq]
    have n80 : ¬ (80 : ℚ) ≤ u := by linarith
    simp [n80, h1]
  · intro h1
    rw [getThreshold_eq]
    simp [h1]

/-- Witness for `classifier_tiers` at concrete inputs of each tier. -/
theorem classifier_tiers_witness :
    getThresholdForPercentage 15 = none ∧
    getThresholdForPercentage 25 = some 20 ∧
    getThresholdForPercentage 45 = some 40 ∧
    getThresholdForPercentage 65 = some 60 ∧
    getThresholdForPercentage 120 = some 80 :=
  ⟨(classifier_tiers 15 (by norm_num)).1 (by norm_num),
   (classifier_tiers 25 (by norm_num)).2.1 (by norm_num) (by norm_num),
   (classifier_tiers 45 (by norm_num)).2.2.1 (by norm_num) (by norm_num),
   (classifier_tiers 65 (by norm_num)).2.2.2.1 (by norm_num) (by norm_num),
   (classifier_tiers 120 (by norm_num)).2.2.2.2 (by norm_num)⟩

/-- C1 (code evaluation at the spec's failing input): with state
`{"w": [80,60,40,20]}` and a snapshot reporting utilization 15 for `w`,
the decision step produces no alert but leaves the state entry at
`[80,60,40,20]` instead of clearing it: `threshold === null` makes the
loop `continue` before the `utilization < 20` reset, so the reset is
unreachable. -/
theorem hysteresis_reset_unreachable :
    decideAlerts [⟨"w", 15⟩] [("w", [80, 60, 40, 20])] =
      ([("w", [80, 60, 40, 20])], []) := by
  have hcl : getThresholdForPercentage (15 : ℚ) = none :=
    getThreshold_lt20 15 (by norm_num)
  show decideAux [] (stepWindow ([("w", [80, 60, 40, 20])], []) ⟨"w", 15⟩) = _
  rw [stepWindow_none _ _ hcl]
  rfl

/-- C4: the decision step is idempotent — rerunning it on the same
snapshot with the state produced by the first run yields no new alerts
(each window's classified tier is already in that window's alerted
set). -/
theorem decide_idempotent (snapshot : List QuotaWindow) (st : AlertState) :
    (decideAlerts snapshot (decideAlerts snapshot st).1).2 = [] := by
  unfold decideAlerts
  rw [decideAux_id_of_covered snapshot ((decideAux snapshot (st, [])).1, [])
    (fun w hw => decideAux_covers snapshot (st, []) w hw)]

/-- C8: a window below the lowest tier never causes a state entry to be
created for its key — starting with no entry for that key, after the
decision step there is still no entry (not merely an empty one), and no
alert is produced for that key. -/
theorem no_entry_below_lowest_tier (snapshot : List QuotaWindow)
    (st : AlertState) (k : String)
    (hu : ∀ w ∈ snapshot, w.stateKey = k → w.utilization < 20)
    (h0 : hasKey st k = false) :
    hasKey (decideAlerts snapshot st).1 k = false ∧
    ∀ t, (k, t) ∉ (decideAlerts snapshot st).2 :=
  decideAux_no_entry snapshot (st, []) k hu h0 (fun t h => (List.not_mem_nil (k, t)) h)

/-- Witness for `no_entry_below_lowest_tier`: the spec's `sevenDay`
end-to-end input (utilization 15, no prior entry). -/
theorem no_entry_below_lowest_tier_witness :
    hasKey (decideAlerts [⟨"7-day", 15⟩] []).1 "7-day" = false :=
  (no_entry_below_lowest_tier [⟨"7-day", 15⟩] [] "7-day"
    (by
      intro w hw hk
      simp only [List.mem_singleton] at hw
      subst hw
      norm_num)
    rfl).1

/-! ## The monitor cycle with send outcomes

`runOnce` wraps the decision loop in a single `try` block:

    try {
      const state = loadAlertState();
      ... decision loop, each alert doing `await sendDiscordAlert(...)` ...
      saveAlertState(state);
      await checkDailyReport(...);
    } catch (error) { console.error(...); }

A throwing send aborts the loop (there is no inner `try`), the `catch` is
reached before `saveAlertState`, and the persisted state is left as
loaded.  `sendOk key tier` abstracts whether the webhook delivery for
that alert succeeds; the `Except` error payload records the alerts that
were already delivered before the throw. -/

/-- The decision loop of `runOnce` with explicit send outcomes.  Returns
`.ok (state, alerts)` when every attempted send succeeds, and
`.error deliveredSoFar` when a send throws (aborting the loop). -/
def runSendsAux (sendOk : String → ℚ → Bool) :
    List QuotaWindow → AlertState → List (String × ℚ) →
      Except (List (String × ℚ)) (AlertState × List (String × ℚ))
  | [], st, acc => .ok (st, acc)
  | w :: ws, st, acc =>
    match getThresholdForPercentage w.utilization with
    | none => runSendsAux sendOk ws st acc
    | some t =>
      let alerted := lookupD st w.stateKey
      if t ∈ alerted then
        let st' := if w.utilization < 20 then setKey st w.stateKey [] else st
        runSendsAux sendOk ws st' acc
      else
        if sendOk w.stateKey t then
          let st' := setKey st w.stateKey (alerted ++ [t])
          let st'' := if w.utilization < 20 then setKey st' w.stateKey [] else st'
          runSendsAux sendOk ws st'' (acc ++ [(w.stateKey, t)])
        else .error acc

/-- One monitor cycle (`runOnce`): run the decision loop over the
snapshot starting from the persisted state; on success the mutated state
is saved (`saveAlertState`), on a throwing send the cycle-level `catch`
is reached first and the persisted state stays as loaded. -/
def runOnce (sendOk : String → ℚ → Bool) (snapshot : List QuotaWindow)
    (persisted : AlertState) : AlertState × List (String × ℚ) :=
  match runSendsAux sendOk snapshot persisted [] with
  | .ok (st, alerts) => (st, alerts)
  | .error _ => (persisted, [])

/-- C7: if an earlier window's alert is delivered (its tier added to the
in-memory state) and a later send in the same cycle throws, the cycle's
`catch` is reached before `saveAlertState`: the delivered tier is never
persisted, and on the next cycle (sends succeeding) the same
(window, tier) alert is sent again. -/
theorem delivered_alert_lost_on_later_failure (k1 k2 : String) (u1 u2 t1 t2 : ℚ)
    (st : AlertState) (sendOk : String → ℚ → Bool) (hk : k1 ≠ k2)
    (h1 : getThresholdForPercentage u1 = some t1) (m1 : t1 ∉ lookupD st k1)
    (s1 : sendOk k1 t1 = true)
    (h2 : getThresholdForPercentage u2 = some t2) (m2 : t2 ∉ lookupD st k2)
    (s2 : sendOk k2 t2 = false) :
    runSendsAux sendOk [⟨k1, u1⟩, ⟨k2, u2⟩] st [] = .error [(k1, t1)] ∧
    runOnce sendOk [⟨k1, u1⟩, ⟨k2, u2⟩] st = (st, []) ∧
    (k1, t1) ∈ (runOnce (fun _ _ => true) [⟨k1, u1⟩, ⟨k2, u2⟩] st).2 := by
  have n1 : ¬ u1 < 20 := not_lt.mpr (getThreshold_some_le _ _ h1)
  have n2 : ¬ u2 < 20 := not_lt.mpr (getThreshold_some_le _ _ h2)
  have hl2 : lookupD (setKey st k1 (lookupD st k1 ++ [t1])) k2 = lookupD st k2 :=
    lookupD_setKey_other st k1 k2 _ (Ne.symm hk)
  have herr : runSendsAux sendOk [⟨k1, u1⟩, ⟨k2, u2⟩] st [] = .error [(k1, t1)] := by
    unfold runSendsAux
    rw [h1]
    simp only [m1, if_false, s1, if_true, n1, if_false]
    unfold runSendsAux
    rw [h2]
    simp [hl2, m2, s2]
  refine ⟨herr, ?_, ?_⟩
  · unfold runOnce
    rw [herr]
  · have hok : runSendsAux (fun _ _ => true) [⟨k1, u1⟩, ⟨k2, u2⟩] st [] =
        .ok (setKey (setKey st k1 (lookupD st k1 ++ [t1])) k2 (lookupD st k2 ++ [t2]),
          [(k1, t1), (k2, t2)]) := by
      unfold runSendsAux
      rw [h1]
      simp only [m1, if_false, if_true, n1]
      unfold runSendsAux
      rw [h2]
      simp only [hl2, m2, if_false, if_true, n2]
      rfl
    unfold runOnce
    rw [hok]
    simp

/-- Witness for `delivered_alert_lost_on_later_failure`: the 5-hour alert
at 85% is delivered, the 7-day alert at 45% throws. -/
theorem delivered_alert_lost_on_later_failure_witness :
    runOnce (fun k _ => k == "5-hour") [⟨"5-hour", 85⟩, ⟨"7-day", 45⟩] [] = ([], []) :=
  (delivered_alert_lost_on_later_failure "5-hour" "7-day" 85 45 80 40 []
    (fun k _ => k == "5-hour") (by decide)
    (by rw [getThreshold_eq]; norm_num)
    (List.not_mem_nil 80) rfl
    (by rw [getThreshold_eq]; norm_num)
    (List.not_mem_nil 40) rfl).2.1

/-! ## Webhook fan-out

`postToWebhooks` (discord service) posts the body to every URL via
`Promise.allSettled`, filters the rejected results, and throws
`All webhooks failed: ${failures[0].reason}` when the number of failures
equals the number of URLs.  We abstract each destination's fetch outcome
as an `Except String Unit` (the rejection reason, or acceptance).  When
`webhookUrls` is empty the all-failed branch is taken with an empty
`failures` array, and `failures[0]` is `undefined`, so reading `.reason`
raises a TypeError before any Error is constructed — modelled as the
distinct `typeErrorUndefined` outcome. -/

/-- What `postToWebhooks` can throw: the deliberate all-failed `Error`,
or the TypeError from dereferencing `failures[0]` of an empty array. -/
inductive NotifyError where
  | delivery (message : String)
  | typeErrorUndefined
deriving DecidableEq

/-- The rejection reason of one settled promise, `none` for fulfilled. -/
def rejectedReason : Except String Unit → Option String
  | .error e => some e
  | .ok _ => none

/-- Whether an `Except` is a success. -/
def exceptOk {ε α : Type} : Except ε α → Bool
  | .ok _ => true
  | .error _ => false

/-- `postToWebhooks` over the per-destination outcomes: throw when every
destination failed (comparing counts, as the source does), succeed
otherwise. -/
def postToWebhooks (results : List (Except String Unit)) : Except NotifyError Unit :=
  let failures := results.filterMap rejectedReason
  if failures.length = results.length then
    .error (match failures with
      | [] => .typeErrorUndefined
      | e :: _ => .delivery ("All webhooks failed: " ++ e))
  else .ok ()

/-- The failure count equals the destination count exactly when every
destination failed. -/
theorem all_rejected_iff (rs : List (Except String Unit)) :
    (rs.filterMap rejectedReason).length = rs.length ↔
      ∀ r ∈ rs, exceptOk r = false := by
  induction rs with
  | nil => simp
  | cons r rest ih =>
    cases r with
    | ok a =>
      have hle := List.length_filterMap_le rejectedReason rest
      simp only [List.filterMap_cons, rejectedReason, List.length_cons,
        List.mem_cons, exceptOk]
      constructor
      · intro h
        omega
      · intro h
        have := h (.ok a) (Or.inl rfl)
        simp [exceptOk] at this
    | error e =>
      simp only [List.filterMap_cons, rejectedReason, List.length_cons,
        List.mem_cons, exceptOk]
      constructor
      · intro h r hr
        rcases hr with rfl | hr
        · rfl
        · exact (ih.mp (by omega)) r hr
      · intro h
        have := ih.mpr (fun r hr => h r (Or.inr hr))
        omega

/-- C3: the fan-out succeeds overall when at least one destination
accepts (2xx), and with a nonempty destination list it throws the
all-failed `Error` exactly when every destination fails; in that case the
caller's cycle aborts before `saveAlertState`, so the alert is not marked
as sent. -/
theorem fanout_at_least_one (rs : List (Except String Unit)) (hne : rs ≠ []) :
    ((∃ r ∈ rs, exceptOk r = true) → postToWebhooks rs = .ok ()) ∧
    ((∀ r ∈ rs, exceptOk r = false) →
      ∃ m, postToWebhooks rs = .error (.delivery m)) ∧
    (∀ (k : String) (u t : ℚ) (st : AlertState),
      getThresholdForPercentage u = some t → t ∉ lookupD st k →
      (∀ r ∈ rs, exceptOk r = false) →
      runOnce (fun _ _ => exceptOk (postToWebhooks rs)) [⟨k, u⟩] st = (st, [])) := by
  have hallfail : (∀ r ∈ rs, exceptOk r = false) →
      ∃ m, postToWebhooks rs = .error (.delivery m) := by
    intro hall
    have hlen : (rs.filterMap rejectedReason).length = rs.length :=
      (all_rejected_iff rs).mpr hall
    have hfne : rs.filterMap rejectedReason ≠ [] := by
      intro h0
      rw [h0] at hlen
      exact hne (List.eq_nil_of_length_eq_zero hlen.symm)
    obtain ⟨e, fs, hf⟩ := List.exists_cons_of_ne_nil hfne
    refine ⟨"All webhooks failed: " ++ e, ?_⟩
    unfold postToWebhooks
    rw [hf] at hlen ⊢
    simp [hlen]
  refine ⟨?_, hallfail, ?_⟩
  · rintro ⟨r, hr, hok⟩
    have hlt : (rs.filterMap rejectedReason).length ≠ rs.length := by
      intro h
      have := (all_rejected_iff rs).mp h r hr
      rw [hok] at this
      cases this
    unfold postToWebhooks
    simp [hlt]
  · intro k u t st hcl hmem hall
    obtain ⟨m, hm⟩ := hallfail hall
    have hsend : exceptOk (postToWebhooks rs) = false := by
      rw [hm]; rfl
    unfold runOnce runSendsAux
    rw [hcl]
    simp [hmem, hsend]

/-- Witness for `fanout_at_least_one`: three destinations, one accepting
and two failing, complete without error; three failing destinations
throw the all-failed `Error`. -/
theorem fanout_at_least_one_witness :
    postToWebhooks [.ok (), .error "500", .error "404"] = .ok () ∧
    ∃ m, postToWebhooks [.error "500", .error "502", .error "404"] =
      .error (.delivery m) :=
  ⟨(fanout_at_least_one [.ok (), .error "500", .error "404"] (by simp)).1
      ⟨.ok (), by simp, rfl⟩,
   (fanout_at_least_one [.error "500", .error "502", .error "404"] (by simp)).2.1
      (by
        intro r hr
        simp only [List.mem_cons, List.not_mem_nil, or_false] at hr
        rcases hr with rfl | rfl | rfl <;> rfl)⟩

/-- C10: calling the fan-out with no destinations takes the all-failed
branch (0 = 0) and crashes dereferencing `failures[0].reason` of an empty
array — it neither completes nor produces the well-formed all-failed
`Error`. -/
theorem empty_fanout_crashes :
    postToWebhooks [] = .error .typeErrorUndefined ∧
    (∀ m, postToWebhooks [] ≠ .error (.delivery m)) ∧
    postToWebhooks [] ≠ .ok () := by
  refine ⟨rfl, fun m h => ?_, fun h => ?_⟩ <;> simp [postToWebhooks] at h

/-! ## Daily report scheduler

`checkDailyReport` in the `monitor` command computes the current hour and
date in the fixed reporting timezone Asia/Seoul (UTC+9, no daylight
saving) via `toLocaleString`, and fires when the hour equals the
configured hour and the process-local cursor `lastDailyReportDate`
differs from today's date; it sets the cursor and then awaits
`sendDailyReport`, in that order.  We model the instant `now` as whole
minutes since the Unix epoch and the timezone conversion arithmetically;
the cursor is `Option ℕ` (a KST day number, `none` for the initial empty
string). -/

/-- Minutes since the epoch shifted to Asia/Seoul local time (UTC+9). -/
def kstMinutes (now : ℕ) : ℕ := now + 9 * 60

/-- The hour-of-day of `now` in Asia/Seoul (`kstHour` in the source). -/
def kstHour (now : ℕ) : ℕ := kstMinutes now / 60 % 24

/-- The calendar day of `now` in Asia/Seoul, as a day number (`kstDate`
in the source is the same day rendered as a ko-KR date string). -/
def kstDay (now : ℕ) : ℕ := kstMinutes now / 1440

/-- The firing condition of `checkDailyReport`
(`kstHour === dailyReportHour && lastDailyReportDate !== kstDate`), the
spec's `isReportDue`. -/
def isReportDue (now : ℕ) (configuredHour : ℕ) (lastSentDay : Option ℕ) : Bool :=
  kstHour now == configuredHour && lastSentDay != some (kstDay now)

/-- `checkDailyReport`: when due, the cursor is set to today's date and
only then is the report sent; a failed send (`sendOk = false`) makes the
cycle raise but the cursor keeps its new value.  Returns the cursor after
the call and whether the call raised. -/
def checkDailyReport (configuredHour : ℕ) (lastSentDay : Option ℕ) (now : ℕ)
    (sendOk : Bool) : Option ℕ × Bool :=
  if isReportDue now configuredHour lastSentDay then (some (kstDay now), !sendOk)
  else (lastSentDay, false)

/-- C6: the daily report is due exactly when the hour of `now` in the
reporting timezone equals the configured hour and the date of `now`
differs from the last-sent date; with hour 9 and cursor 2024-01-01 it is
not due at 09:30 KST on 2024-01-01 (minute 28401150 of the epoch) and is
due at 09:01 KST on 2024-01-02 (minute 28402561). -/
theorem report_due_iff (now ch : ℕ) (last : Option ℕ) :
    (isReportDue now ch last = true ↔
      kstHour now = ch ∧ last ≠ some (kstDay now)) ∧
    isReportDue (19723 * 1440 + 30) 9 (some 19723) = false ∧
    isReportDue (19724 * 1440 + 1) 9 (some 19723) = true := by
  refine ⟨?_, by decide, by decide⟩
  simp [isReportDue, bne_iff_ne]

/-- C5 counterexample: at 09:01 KST on 2024-01-02 with cursor 2024-01-01,
a report whose delivery fails at every destination (the call raises)
still advances the cursor to 2024-01-02 — the claim's "cursor not
advanced on total failure" is false on the code. -/
theorem report_cursor_advanced_despite_failure :
    (checkDailyReport 9 (some 19723) (19724 * 1440 + 1) false).2 = true ∧
    (checkDailyReport 9 (some 19723) (19724 * 1440 + 1) false).1 = some 19724 ∧
    (checkDailyReport 9 (some 19723) (19724 * 1440 + 1) false).1 ≠ some 19723 := by
  refine ⟨by decide, by decide, by decide⟩

/-- C5 amended: whenever the report is due, `checkDailyReport` sets the
cursor to today's date before the send, whether or not delivery
succeeds; consequently a report that failed at every destination is not
retried by any later poll on the same reporting-timezone day. -/
theorem report_cursor_updated_before_send (ch : ℕ) (last : Option ℕ) (now : ℕ)
    (sendOk : Bool) (hdue : isReportDue now ch last = true) :
    (checkDailyReport ch last now sendOk).1 = some (kstDay now) ∧
    ((checkDailyReport ch last now sendOk).2 = true ↔ sendOk = false) ∧
    (∀ now', kstDay now' = kstDay now →
      isReportDue now' ch (checkDailyReport ch last now sendOk).1 = false) := by
  unfold checkDailyReport
  rw [hdue]
  refine ⟨rfl, ?_, ?_⟩
  · simp
  · intro now' hday
    simp [isReportDue, hday]

/-- Witness for `report_cursor_updated_before_send` at the concrete
failing-delivery input of the counterexample. -/
theorem report_cursor_updated_before_send_witness :
    (checkDailyReport 9 (some 19723) (19724 * 1440 + 1) false).1 =
      some (kstDay (19724 * 1440 + 1)) :=
  (report_cursor_updated_before_send 9 (some 19723) (19724 * 1440 + 1) false
    (by decide)).1

/-! ## Alert state store -/

/-- `loadAlertState` from config.ts: `{}` when the state file is absent,
`JSON.parse` of its contents otherwise, with the whole body in a
`try`/`catch` returning `{}` on any parse failure.  The file system is
abstracted as the optional file contents and `JSON.parse` as an optional
parse result (`none` models a throw).  The function is total: it never
propagates an error. -/
def loadAlertState (file : Option String) (parse : String → Option AlertState) :
    AlertState :=
  match file with
  | none => []
  | some raw =>
    match parse raw with
    | some st => st
    | none => []

/-- C9: loading the alert state yields the empty mapping when the state
file is absent and when its contents fail to parse, and (being a total
function) never raises in either case. -/
theorem load_state_recovers (parse : String → Option AlertState) (raw : String)
    (h : parse raw = none) :
    loadAlertState none parse = [] ∧ loadAlertState (some raw) parse = [] := by
  refine ⟨rfl, ?_⟩
  simp only [loadAlertState]
  rw [h]

/-- Witness for `load_state_recovers`: a parse that rejects the corrupt
contents. -/
theorem load_state_recovers_witness :
    loadAlertState (some "corrupt") (fun _ => none) = [] :=
  (load_state_recovers (fun _ => none) "corrupt" rfl).2

end QuotaCli
